import Mathlib

/-!
Verification of the stroke-prediction web application.

The client-side layer is embedded from `static/js/app.js`: form-field
validation (`validateField`, `validateForm`, the submit handler installed by
`initializeFormValidation`), the e-mail regular expression (`isValidEmail`),
the risk-tier colour table (`getRiskLevelColor`) and the toast-alert routine
(`showAlert`).  JavaScript numbers reaching these functions are decimal
strings parsed with `parseFloat` / `parseInt`; the parsers are modelled over
`Rat` / `Int` with the prefix-parsing behaviour of JavaScript, `Option.none`
standing for `NaN`, and every comparison against `NaN` evaluating to false.

The server-side risk-scoring engine (`score` in `app.py`) is not part of the
sources available here, so it is modelled from the specification text.
-/

namespace StrokeApp

/-- JavaScript `String.prototype.trim` as used by
`field.value.trim()`: strip leading and trailing whitespace. -/
def trimJS (s : String) : String :=
  String.mk (((s.toList.dropWhile Char.isWhitespace).reverse.dropWhile
    Char.isWhitespace).reverse)

/-- Fold a run of decimal digits into the natural number they denote. -/
def digitsToNat (l : List Char) : Nat :=
  l.foldl (fun acc c => 10 * acc + (c.toNat - Char.toNat (Char.ofNat 48))) 0

/-- JavaScript `parseInt` on an already-trimmed string, decimal radix:
optional sign followed by the longest run of decimal digits; `none` models
`NaN` (no leading digits).  The hexadecimal `0x` prefix is not modelled. -/
def parseIntJS (s : String) : Option Int :=
  let signAndRest : Int × List Char :=
    match s.toList with
    | '-' :: r => (-1, r)
    | '+' :: r => (1, r)
    | r => (1, r)
  let ds := signAndRest.2.takeWhile Char.isDigit
  if ds.isEmpty then none
  else some (signAndRest.1 * (digitsToNat ds : Int))

/-- JavaScript `parseFloat` on an already-trimmed string: optional sign,
integer digits, optional decimal point with fraction digits, longest valid
prefix; `none` models `NaN` (no digits at all).  Exponent notation and
`Infinity` are not modelled. -/
def parseFloatJS (s : String) : Option Rat :=
  let signAndRest : Rat × List Char :=
    match s.toList with
    | '-' :: r => (-1, r)
    | '+' :: r => (1, r)
    | r => (1, r)
  let intDs := signAndRest.2.takeWhile Char.isDigit
  let after := signAndRest.2.dropWhile Char.isDigit
  let fracDs : List Char :=
    match after with
    | '.' :: r => r.takeWhile Char.isDigit
    | _ => []
  if intDs.isEmpty ∧ fracDs.isEmpty then none
  else some (signAndRest.1 *
    ((digitsToNat intDs : Rat) + (digitsToNat fracDs : Rat) / (10 : Rat) ^ fracDs.length))

/-- `a < b` under JavaScript semantics where either operand may be `NaN`
(`none`): any comparison with `NaN` is false. -/
def jsLt (a b : Option Rat) : Bool :=
  match a, b with
  | some x, some y => decide (x < y)
  | _, _ => false

/-- `a > b` under JavaScript semantics where either operand may be `NaN`. -/
def jsGt (a b : Option Rat) : Bool :=
  match a, b with
  | some x, some y => decide (y < x)
  | _, _ => false

/-- `x < lo || x > hi` where `x` may be `NaN`, as in the field-specific
range checks of `validateField`. -/
def jsOutsideQ (x : Option Rat) (lo hi : Rat) : Bool :=
  match x with
  | some v => decide (v < lo) || decide (hi < v)
  | none => false

/-- `x < lo || x > hi` for the integer `age` check, `x` possibly `NaN`. -/
def jsOutsideI (x : Option Int) (lo hi : Int) : Bool :=
  match x with
  | some v => decide (v < lo) || decide (hi < v)
  | none => false

/-- `parseFloat(field.getAttribute(attr))`: an absent attribute parses to
`NaN`. -/
def attrFloat (a : Option String) : Option Rat :=
  match a with
  | some s => parseFloatJS s
  | none => none

/-- A character admitted by the classes `[^\s@]` of the e-mail regular
expression: neither whitespace nor `@`. -/
def isEmailChar (c : Char) : Bool :=
  !c.isWhitespace && c != '@'

/-- Match `p+` followed by whatever the continuation `k` accepts: consume one
or more characters satisfying `p`, then hand the rest to `k`, backtracking
over the length of the run as a regular-expression engine does. -/
def plusThen (p : Char → Bool) (k : List Char → Bool) : List Char → Bool
  | [] => false
  | c :: cs => p c && (k cs || plusThen p k cs)

/-- Match the suffix `[^\s@]+$` of the e-mail regular expression. -/
def tailPart (r : List Char) : Bool :=
  plusThen isEmailChar List.isEmpty r

/-- Match the suffix `\.[^\s@]+$`: a literal dot, then `tailPart`. -/
def dotPart (r : List Char) : Bool :=
  match r with
  | [] => false
  | c :: r2 => c == '.' && tailPart r2

/-- Match the suffix `[^\s@]+\.[^\s@]+$`. -/
def domainPart (r : List Char) : Bool :=
  plusThen isEmailChar dotPart r

/-- Match the suffix `@[^\s@]+\.[^\s@]+$`: a literal `@`, then
`domainPart`. -/
def atPart (r : List Char) : Bool :=
  match r with
  | [] => false
  | c :: r2 => c == '@' && domainPart r2

/-- `isValidEmail` from app.js: whether the whole string matches the
anchored regular expression `^[^\s@]+@[^\s@]+\.[^\s@]+$`. -/
def isValidEmail (s : String) : Bool :=
  plusThen isEmailChar atPart s.toList

/-- The shape the specification sentence of the e-mail check describes: one
or more characters that are neither whitespace nor `@`, a single `@`, one
or more such characters, a dot, and one or more such characters. -/
def emailShape (s : String) : Prop :=
  ∃ a b c : List Char,
    s.toList = a ++ '@' :: (b ++ '.' :: c) ∧
    a ≠ [] ∧ b ≠ [] ∧ c ≠ [] ∧
    (∀ x ∈ a, isEmailChar x = true) ∧
    (∀ x ∈ b, isEmailChar x = true) ∧
    (∀ x ∈ c, isEmailChar x = true)

/-- A form field as `validateField` sees it: name, `type` attribute, raw
value, presence of the `required` attribute and the `min` / `max`
attributes read for number inputs. -/
structure Field where
  name : String
  ftype : String
  value : String
  required : Bool
  minAttr : Option String
  maxAttr : Option String
deriving Repr, DecidableEq

/-- `validateField` from app.js: trims the value, rejects an empty required
field, applies the type-specific checks (email format, number parse and
min/max attributes, password length) and then the field-name-specific range
checks for `age`, `bmi` and `avg_glucose_level`; returns whether the field
passed (`false` is always accompanied in the source by `showFieldError`). -/
def validateField (f : Field) : Bool :=
  let value := trimJS f.value
  if f.required ∧ value = "" then false
  else if f.ftype = "email" ∧ value ≠ "" ∧ isValidEmail value = false then false
  else if f.ftype = "number" ∧ value ≠ "" ∧ (parseFloatJS value).isNone then false
  else if f.ftype = "number" ∧ jsLt (parseFloatJS value) (attrFloat f.minAttr) then false
  else if f.ftype = "number" ∧ jsGt (parseFloatJS value) (attrFloat f.maxAttr) then false
  else if f.ftype = "password" ∧ value ≠ "" ∧ value.length < 6 then false
  else if f.name = "age" ∧ value ≠ "" ∧ jsOutsideI (parseIntJS value) 0 120 then false
  else if f.name = "bmi" ∧ value ≠ "" ∧ jsOutsideQ (parseFloatJS value) 10 60 then false
  else if f.name = "avg_glucose_level" ∧ value ≠ "" ∧ jsOutsideQ (parseFloatJS value) 50 500 then false
  else true

/-- `validateForm` from app.js: run `validateField` over every field
carrying the `required` attribute, latching `isValid` to false on any
failure. -/
def validateForm (fields : List Field) : Bool :=
  (fields.filter (fun f => f.required)).foldl
    (fun isValid f => if validateField f then isValid else false) true

/-- Outcome of the submit handler installed by `initializeFormValidation`:
whether `e.preventDefault()` ran and which alert, if any, was shown. -/
structure SubmitOutcome where
  prevented : Bool
  alertMsg : Option (String × String)
deriving Repr, DecidableEq

/-- The submit handler from `initializeFormValidation`: when `validateForm`
fails it prevents submission and shows a warning toast, otherwise it lets
the submission proceed. -/
def submitHandler (fields : List Field) : SubmitOutcome :=
  if validateForm fields then ⟨false, none⟩
  else ⟨true, some ("Please fill in all required fields correctly.", "warning")⟩

/-- A JavaScript value that `colors[level] || defaultColor` can produce: a
plain colour string, or a truthy member (function, or the prototype object
for `__proto__`) inherited from `Object.prototype`, since the `colors`
object literal inherits from it. -/
inductive JsValue where
  | str (s : String)
  | inherited (name : String)
deriving Repr, DecidableEq

/-- The own member names of `Object.prototype` in a browser: looking any of
these up on the `colors` object literal yields a truthy inherited value
rather than `undefined`. -/
def objectPrototypeProps : List String :=
  ["constructor", "hasOwnProperty", "isPrototypeOf", "propertyIsEnumerable",
   "toLocaleString", "toString", "valueOf", "__defineGetter__",
   "__defineSetter__", "__lookupGetter__", "__lookupSetter__", "__proto__"]

/-- `getRiskLevelColor` from app.js: `colors[level] || defaultColor` where
`colors` is an object literal.  An own property yields its colour string; a
member name inherited from `Object.prototype` yields that truthy inherited
value, which `||` passes through unchanged; only a lookup yielding
`undefined` falls back to the default colour `#6c757d`. -/
def getRiskLevelColor (level : String) : JsValue :=
  if level = "Very Low" then JsValue.str "#28a745"
  else if level = "Low" then JsValue.str "#17a2b8"
  else if level = "Moderate" then JsValue.str "#ffc107"
  else if level = "High" then JsValue.str "#fd7e14"
  else if level = "Very High" then JsValue.str "#dc3545"
  else if level = "Critical" then JsValue.str "#6f42c1"
  else if level ∈ objectPrototypeProps then JsValue.inherited level
  else JsValue.str "#6c757d"

/-- The six tier names of the ordered risk enumeration. -/
def tierNames : List String :=
  ["Very Low", "Low", "Moderate", "High", "Very High", "Critical"]

/-- A DOM element as far as `showAlert` is concerned: its class list. -/
structure Elem where
  classes : List String
deriving Repr, DecidableEq

/-- Whether an element carries a given class. -/
def hasClass (cls : String) (e : Elem) : Bool :=
  e.classes.contains cls

/-- The synchronous part of `showAlert` from app.js acting on the document:
remove every element with class `alert-toast`, then append the new alert
element whose `className` is `alert alert-<type> alert-toast`, together
with the child elements created by interpolating the caller-supplied
message raw into the alert `innerHTML` — `msgElems` abstracts the elements
that markup denotes.  The delayed animation and auto-removal timeouts are
asynchronous and outside this step. -/
def showAlert (ty : String) (msgElems : List Elem) (body : List Elem) : List Elem :=
  body.filter (fun e => !hasClass "alert-toast" e) ++
    (⟨["alert", "alert-" ++ ty, "alert-toast"]⟩ :: msgElems)

/-- Modelled from the spec: the `gender` categorical field of a
`HealthProfile` (the scoring engine itself is in `app.py`, which is not
among the available sources). -/
inductive Gender where
  | male
  | female
  | other
deriving Repr, DecidableEq

/-- Modelled from the spec: the `work_type` categorical field. -/
inductive WorkType where
  | private_sector
  | selfEmployed
  | government
  | neverWorked
  | child
deriving Repr, DecidableEq

/-- Modelled from the spec: the `residence_type` categorical field. -/
inductive Residence where
  | urban
  | rural
deriving Repr, DecidableEq

/-- Modelled from the spec: the `smoking_status` categorical field. -/
inductive Smoking where
  | never
  | former
  | current
  | unknown
deriving Repr, DecidableEq

/-- Modelled from the spec: the validated `HealthProfile` input record of
the risk scorer. -/
structure HealthProfile where
  age : Nat
  gender : Gender
  hypertension : Bool
  heart_disease : Bool
  ever_married : Bool
  work_type : WorkType
  residence_type : Residence
  avg_glucose_level : Rat
  bmi : Rat
  smoking_status : Smoking
deriving Repr, DecidableEq

/-- Modelled from the spec: the six-level ordered risk tier. -/
inductive Tier where
  | veryLow
  | low
  | moderate
  | high
  | veryHigh
  | critical
deriving Repr, DecidableEq

/-- Modelled from the spec: the immutable `RiskResult` output record. -/
structure RiskResult where
  score : Rat
  tier : Tier
  contributing_factors : List (String × Rat)
deriving Repr, DecidableEq

/-- Modelled from the spec: graduated age weight, one band per decade above
the threshold of 50. -/
def ageWeight (p : HealthProfile) : Rat :=
  if 50 < p.age then (((p.age - 50 - 1) / 10 + 1 : Nat) : Rat) * 4 else 0

/-- Modelled from the spec: glucose weight, a fixed add above the clinical
threshold of 140 mg/dL and a larger add above the second threshold of
180 mg/dL. -/
def glucoseWeight (p : HealthProfile) : Rat :=
  if 180 < p.avg_glucose_level then 15
  else if 140 < p.avg_glucose_level then 8
  else 0

/-- Modelled from the spec: BMI weight outside the healthy band
(below 18.5 or above 30), graduated by severity. -/
def bmiWeight (p : HealthProfile) : Rat :=
  if p.bmi < (37 : Rat) / 2 then 5
  else if 40 < p.bmi then 12
  else if 30 < p.bmi then 8
  else 0

/-- Modelled from the spec: smoking weight, a fixed add for a current
smoker and a smaller add for a former smoker. -/
def smokingWeight (p : HealthProfile) : Rat :=
  match p.smoking_status with
  | Smoking.current => 10
  | Smoking.former => 5
  | _ => 0

/-- Modelled from the spec: the fixed rule list of the weighted-rule
accumulation, evaluated in this order. -/
def ruleList : List (String × (HealthProfile → Rat)) :=
  [ ("age", ageWeight)
  , ("hypertension", fun p => if p.hypertension then 10 else 0)
  , ("heart_disease", fun p => if p.heart_disease then 10 else 0)
  , ("avg_glucose_level", glucoseWeight)
  , ("bmi", bmiWeight)
  , ("smoking_status", smokingWeight) ]

/-- Modelled from the spec: the lower bound of the configured score range. -/
def scoreMin : Rat := 0

/-- Modelled from the spec: the upper bound of the configured score range. -/
def scoreMax : Rat := 100

/-- Modelled from the spec: map the clamped score to a tier through the
fixed ascending cutoffs. -/
def tierOf (s : Rat) : Tier :=
  if s < 10 then Tier.veryLow
  else if s < 25 then Tier.low
  else if s < 45 then Tier.moderate
  else if s < 65 then Tier.high
  else if s < 85 then Tier.veryHigh
  else Tier.critical

/-- Modelled from the spec: `score(profile) -> RiskResult` of the risk
scorer in `app.py`, absent from the available sources — weighted rule
accumulation over the fixed rule list, non-zero contributions recorded in
rule order, total clamped to the configured range and mapped to a tier. -/
def score (p : HealthProfile) : RiskResult :=
  let contributions := ruleList.map (fun r => (r.1, r.2 p))
  let nonzero := contributions.filter (fun c => c.2 ≠ 0)
  let raw := contributions.foldl (fun acc c => acc + c.2) 0
  let clamped := max scoreMin (min scoreMax raw)
  ⟨clamped, tierOf clamped, nonzero⟩

/-- A latch-style fold over a field list equals the conjunction of the
start value with `validateField` holding on every element, as in the
`isValid` accumulator of `validateForm`. -/
theorem foldl_latch (l : List Field) (b : Bool) :
    l.foldl (fun isValid f => if validateField f then isValid else false) b
      = (b && l.all (fun f => validateField f)) := by
  induction l generalizing b with
  | nil => simp
  | cons f fs ih =>
      rw [List.foldl_cons, ih]
      cases hf : validateField f <;> simp [hf]

/-- C1: for every valid HealthProfile input, `score(profile).score` lies
within the configured bound range `[scoreMin, scoreMax]` = `[0, 100]`,
because the accumulated weighted score is clamped to that range before it
is returned. -/
theorem score_within_bounds (p : HealthProfile) :
    scoreMin ≤ (score p).score ∧ (score p).score ≤ scoreMax := by
  unfold score
  refine ⟨le_max_left _ _, ?_⟩
  exact max_le (by norm_num [scoreMin, scoreMax]) (min_le_left _ _)

/-- C7: calling `score` twice on an identical profile yields an identical
`RiskResult` — the same score, tier and contributing-factors sequence. -/
theorem score_deterministic (p1 p2 : HealthProfile) (h : p1 = p2) :
    (score p1).score = (score p2).score ∧
    (score p1).tier = (score p2).tier ∧
    (score p1).contributing_factors = (score p2).contributing_factors := by
  subst h
  exact ⟨rfl, rfl, rfl⟩

/-- Witness for C7 at a concrete profile. -/
theorem score_deterministic_witness :
    (score ⟨70, Gender.male, true, false, true, WorkType.private_sector,
        Residence.urban, 160, 32, Smoking.current⟩).score =
      (score ⟨70, Gender.male, true, false, true, WorkType.private_sector,
        Residence.urban, 160, 32, Smoking.current⟩).score :=
  (score_deterministic _ _ rfl).1

/-- Counterexample to C4 as stated: the input `toString` lies outside the
tier enumeration, yet `getRiskLevelColor` does not return the default
colour — `colors["toString"]` is the truthy member inherited from
`Object.prototype`, which `||` passes through. -/
theorem riskLevelColor_counterexample :
    "toString" ∉ tierNames ∧
      getRiskLevelColor "toString" ≠ JsValue.str "#6c757d" := by
  constructor <;> decide

/-- C4 amended: the six tier names map to pairwise distinct colour strings,
and every input outside the enumeration that is not an `Object.prototype`
member name gets the default colour `#6c757d`; prototype member names such
as `toString` instead return the inherited truthy value. -/
theorem riskLevelColor_table (s : String) (h1 : s ∉ tierNames)
    (h2 : s ∉ objectPrototypeProps) :
    getRiskLevelColor s = JsValue.str "#6c757d" ∧
      (tierNames.map getRiskLevelColor).Nodup := by
  refine ⟨?_, by decide⟩
  simp only [tierNames, List.mem_cons, List.not_mem_nil, or_false, not_or] at h1
  obtain ⟨g1, g2, g3, g4, g5, g6⟩ := h1
  simp [getRiskLevelColor, g1, g2, g3, g4, g5, g6, h2]

/-- Witness for the amended C4 at the concrete non-tier, non-prototype
string "foo". -/
theorem riskLevelColor_table_witness :
    getRiskLevelColor "foo" = JsValue.str "#6c757d" ∧
      (tierNames.map getRiskLevelColor).Nodup :=
  riskLevelColor_table "foo" (by decide) (by decide)

/-- Counterexample to C8 as stated: a message whose markup itself carries an
element of class `alert-toast` — for example a `b` tag with that class,
injected through the raw `innerHTML` interpolation — leaves two elements
with that class after the synchronous work of `showAlert`, not one. -/
theorem showAlert_counterexample :
    (showAlert "info" [⟨["alert-toast"]⟩] []).countP (hasClass "alert-toast") = 2 ∧
      (showAlert "info" [⟨["alert-toast"]⟩] []).countP (hasClass "alert-toast") ≠ 1 := by
  constructor <;> decide

/-- C8 amended: when the caller-supplied message markup contains no element
of class `alert-toast`, the document holds exactly one element with that
class after the synchronous part of `showAlert`: every previous toast is
removed and the single new alert element (with its message children) is
appended. -/
theorem showAlert_single_toast (ty : String) (msgElems body : List Elem)
    (h : ∀ e ∈ msgElems, hasClass "alert-toast" e = false) :
    (showAlert ty msgElems body).countP (hasClass "alert-toast") = 1 := by
  unfold showAlert
  rw [List.countP_append]
  have h0 : (body.filter (fun e => !hasClass "alert-toast" e)).countP
      (hasClass "alert-toast") = 0 := by
    rw [List.countP_eq_zero]
    intro e he
    have := (List.mem_filter.mp he).2
    simpa using this
  have h1 : msgElems.countP (hasClass "alert-toast") = 0 := by
    rw [List.countP_eq_zero]
    intro e he
    simp [h e he]
  rw [h0, List.countP_cons, h1]
  simp [hasClass]

/-- Witness for the amended C8 with a markup-free message, over a document
already holding a toast. -/
theorem showAlert_single_toast_witness :
    (showAlert "warning" [] [⟨["alert-toast"]⟩]).countP
      (hasClass "alert-toast") = 1 :=
  showAlert_single_toast "warning" [] [⟨["alert-toast"]⟩] (by simp)

/-- C3: the submit handler prevents submission and shows the warning toast
exactly when `validateForm` is false, and `validateForm` is true exactly
when every field carrying the `required` attribute passes
`validateField`. -/
theorem submit_validation (fields : List Field) :
    (((submitHandler fields).prevented = true ∧
        ((submitHandler fields).alertMsg).isSome = true) ↔
      validateForm fields = false) ∧
    (validateForm fields = true ↔
      ∀ f ∈ fields, f.required = true → validateField f = true) := by
  constructor
  · cases h : validateForm fields <;> simp [submitHandler, h]
  · rw [validateForm, foldl_latch]
    simp only [Bool.true_and, List.all_eq_true]
    constructor
    · intro h f hf hreq
      exact h f (List.mem_filter.mpr ⟨hf, hreq⟩)
    · intro h f hf
      obtain ⟨hmem, hreq⟩ := List.mem_filter.mp hf
      exact h f hmem hreq

/-- C5: for a non-empty value of the numeric `avg_glucose_level` field,
`validateField` accepts exactly when the value parses to a number between
50 and 500 inclusive (non-parsing values are rejected by the number-type
check). -/
theorem glucose_range (v : String) (req : Bool) (h : trimJS v ≠ "") :
    validateField ⟨"avg_glucose_level", "number", v, req, none, none⟩ = true ↔
      ∃ x : Rat, parseFloatJS (trimJS v) = some x ∧ 50 ≤ x ∧ x ≤ 500 := by
  cases hp : parseFloatJS (trimJS v) with
  | none =>
      simp [validateField, hp, h, jsLt, jsGt, jsOutsideQ, attrFloat]
  | some x =>
      simp [validateField, hp, h, jsLt, jsGt, jsOutsideQ, attrFloat, not_or, not_lt]

/-- Witness for C5 at the boundary value 50. -/
theorem glucose_range_witness :
    validateField ⟨"avg_glucose_level", "number", "50", true, none, none⟩ = true := by
  refine (glucose_range "50" true (by decide)).mpr ⟨50, ?_, by norm_num, by norm_num⟩
  have ht : trimJS "50" = "50" := by decide
  rw [ht]
  simp [parseFloatJS, digitsToNat]

/-- C6: for a non-empty value of the numeric `bmi` field, `validateField`
accepts exactly when the value parses to a number between 10 and 60
inclusive (non-parsing values are rejected by the number-type check). -/
theorem bmi_range (v : String) (req : Bool) (h : trimJS v ≠ "") :
    validateField ⟨"bmi", "number", v, req, none, none⟩ = true ↔
      ∃ x : Rat, parseFloatJS (trimJS v) = some x ∧ 10 ≤ x ∧ x ≤ 60 := by
  cases hp : parseFloatJS (trimJS v) with
  | none =>
      simp [validateField, hp, h, jsLt, jsGt, jsOutsideQ, attrFloat]
  | some x =>
      simp [validateField, hp, h, jsLt, jsGt, jsOutsideQ, attrFloat, not_or, not_lt]

/-- Witness for C6 at the boundary value 10. -/
theorem bmi_range_witness :
    validateField ⟨"bmi", "number", "10", true, none, none⟩ = true := by
  refine (bmi_range "10" true (by decide)).mpr ⟨10, ?_, by norm_num, by norm_num⟩
  have ht : trimJS "10" = "10" := by decide
  rw [ht]
  simp [parseFloatJS, digitsToNat]

/-- Counterexample to C2 as stated: the value `abc` of a (text) field named
`age` contains no digit at all — it represents no integer, let alone one
between 0 and 120 — yet `validateField` accepts it, because `parseInt`
yields `NaN` and both range comparisons against `NaN` are false. -/
theorem age_counterexample :
    validateField ⟨"age", "text", "abc", true, none, none⟩ = true ∧
      ("abc".toList.all (fun c => !c.isDigit)) = true := by
  constructor <;> decide

/-- C2 amended: for a non-empty value of a field named `age`, the
age-specific rule of `validateField` rejects exactly when `parseInt`
yields a number outside 0–120; when `parseInt` yields `NaN` (no leading
integer) the value passes the age rule. -/
theorem age_rule (v : String) (req : Bool) (h : trimJS v ≠ "") :
    validateField ⟨"age", "text", v, req, none, none⟩ = true ↔
      ∀ a : Int, parseIntJS (trimJS v) = some a → 0 ≤ a ∧ a ≤ 120 := by
  cases hp : parseIntJS (trimJS v) with
  | none =>
      simp [validateField, hp, h, jsLt, jsGt, jsOutsideI, jsOutsideQ, attrFloat]
  | some a =>
      simp [validateField, hp, h, jsOutsideI, not_or, not_lt]

/-- Witness for the amended C2 at the value 30. -/
theorem age_rule_witness :
    validateField ⟨"age", "text", "30", true, none, none⟩ = true :=
  (age_rule "30" true (by decide)).mpr (fun a ha => by
    have h30 : parseIntJS (trimJS "30") = some 30 := by decide
    rw [h30, Option.some_inj] at ha
    subst ha
    constructor <;> decide)

/-- Counterexample to C9 as stated: the 7-character password value
`" abcde "` is not shorter than 6 characters, yet `validateField` rejects
it, because the value is trimmed to the 5-character `"abcde"` before the
length check. -/
theorem password_counterexample :
    validateField ⟨"password", "password", " abcde ", true, none, none⟩ = false ∧
      6 ≤ " abcde ".length := by
  constructor <;> decide

/-- C9 amended: for a password field, `validateField` rejects a value whose
trimmed form is non-empty exactly when that trimmed form has fewer than 6
characters, and rejects a value that trims to empty exactly when the field
carries the `required` attribute. -/
theorem password_length_rule (v : String) (req : Bool) :
    (trimJS v ≠ "" →
      (validateField ⟨"password", "password", v, req, none, none⟩ = false ↔
        (trimJS v).length < 6)) ∧
    (trimJS v = "" →
      (validateField ⟨"password", "password", v, req, none, none⟩ = false ↔
        req = true)) := by
  constructor
  · intro h
    by_cases hl : (trimJS v).length < 6 <;>
      simp [validateField, h, hl, jsLt, jsGt, jsOutsideI, jsOutsideQ, attrFloat]
  · intro h
    cases req <;> simp [validateField, h]

/-- Witness for the amended C9 at a 7-character password. -/
theorem password_length_rule_witness :
    validateField ⟨"password", "password", "secret1", true, none, none⟩ = true := by
  have h := (password_length_rule "secret1" true).1 (by decide)
  cases hb : validateField ⟨"password", "password", "secret1", true, none, none⟩ with
  | false => exact absurd (h.mp hb) (by decide)
  | true => rfl

/-- Splitting characterization of `plusThen`: matching `p+` followed by the
continuation `k` is exactly the existence of a non-empty prefix of
`p`-characters whose remainder `k` accepts. -/
theorem plusThen_iff (p : Char → Bool) (k : List Char → Bool) (l : List Char) :
    plusThen p k l = true ↔
      ∃ u v, l = u ++ v ∧ u ≠ [] ∧ (∀ c ∈ u, p c = true) ∧ k v = true := by
  induction l with
  | nil =>
      constructor
      · intro h
        simp [plusThen] at h
      · rintro ⟨u, v, heq, hne, -, -⟩
        have h0 := List.append_eq_nil.mp heq.symm
        exact absurd h0.1 hne
  | cons c cs ih =>
      simp only [plusThen, Bool.and_eq_true, Bool.or_eq_true]
      constructor
      · rintro ⟨hpc, hk | hrec⟩
        · exact ⟨[c], cs, rfl, by simp, by simp [hpc], hk⟩
        · obtain ⟨u, v, heq, hne, hall, hkv⟩ := ih.mp hrec
          refine ⟨c :: u, v, by simp [heq], by simp, ?_, hkv⟩
          intro x hx
          rcases List.mem_cons.mp hx with h1 | h2
          · subst h1; exact hpc
          · exact hall x h2
      · rintro ⟨u, v, heq, hne, hall, hkv⟩
        cases u with
        | nil => exact absurd rfl hne
        | cons u0 us =>
            simp only [List.cons_append, List.cons.injEq] at heq
            obtain ⟨hcu, hcs⟩ := heq
            subst hcu
            refine ⟨hall c (by simp), ?_⟩
            cases us with
            | nil =>
                left
                simp only [List.nil_append] at hcs
                subst hcs
                exact hkv
            | cons u1 us2 =>
                right
                refine ih.mpr ⟨u1 :: us2, v, hcs, by simp, ?_, hkv⟩
                intro x hx
                exact hall x (List.mem_cons_of_mem _ hx)

/-- `tailPart` accepts exactly the non-empty runs of e-mail characters. -/
theorem tailPart_iff (r : List Char) :
    tailPart r = true ↔ r ≠ [] ∧ ∀ c ∈ r, isEmailChar c = true := by
  rw [tailPart, plusThen_iff]
  constructor
  · rintro ⟨u, v, heq, hne, hall, hkv⟩
    have hv : v = [] := by simpa using hkv
    subst hv
    rw [List.append_nil] at heq
    subst heq
    exact ⟨hne, hall⟩
  · rintro ⟨hne, hall⟩
    exact ⟨r, [], by simp, hne, hall, rfl⟩

/-- C10: `isValidEmail` accepts a string exactly when it consists of one or
more characters that are neither whitespace nor `@`, a single `@`, one or
more such characters, a dot, and one or more such characters; in
particular, strings with whitespace, without `@`, or without a dot after
the `@` are rejected. -/
theorem email_regex_shape (s : String) :
    isValidEmail s = true ↔ emailShape s := by
  unfold isValidEmail emailShape
  rw [plusThen_iff]
  constructor
  · rintro ⟨a, v, heq, hane, haall, hat⟩
    cases v with
    | nil => simp [atPart] at hat
    | cons c r2 =>
        simp only [atPart, Bool.and_eq_true, beq_iff_eq] at hat
        obtain ⟨hc, hdom⟩ := hat
        subst hc
        rw [domainPart, plusThen_iff] at hdom
        obtain ⟨b, w, hw, hbne, hball, hdot⟩ := hdom
        cases w with
        | nil => simp [dotPart] at hdot
        | cons d r3 =>
            simp only [dotPart, Bool.and_eq_true, beq_iff_eq] at hdot
            obtain ⟨hd, htail⟩ := hdot
            subst hd
            rw [tailPart_iff] at htail
            obtain ⟨hcne, hcall⟩ := htail
            exact ⟨a, b, r3, by rw [heq, hw], hane, hbne, hcne, haall, hball, hcall⟩
  · rintro ⟨a, b, c, heq, hane, hbne, hcne, ha, hb, hc⟩
    refine ⟨a, '@' :: (b ++ '.' :: c), heq, hane, ha, ?_⟩
    simp only [atPart, Bool.and_eq_true, beq_self_eq_true, true_and]
    rw [domainPart, plusThen_iff]
    refine ⟨b, '.' :: c, rfl, hbne, hb, ?_⟩
    simp only [dotPart, Bool.and_eq_true, beq_self_eq_true, true_and]
    rw [tailPart_iff]
    exact ⟨hcne, hc⟩

end StrokeApp
